import Mathlib

/-!
Verification of the motominder repository layer and insert use case.

The Go sources are shallowly embedded:
* `Motorcycle` mirrors `entities.Motorcycle` (ID, Make, Model, Year, Vin,
  CreatedUtc, ModifiedUtc); timestamps are abstract `Int` ticks and every
  operation that calls `time.Now()` takes the current tick as an argument.
* `RepositoryState` pairs the `MotorcycleRepository.Motorcycles` slice with
  the package-global `nextID` counter (a Go package variable, modelled as
  part of the state that every repository operation threads through).
* Go's `sort.Search` loop is embedded as `sortSearchGo`, a fuel-indexed
  version of the exact binary-probing loop; the fuel (interval width) is a
  strict upper bound on the number of iterations, so with fuel `n` the
  function is the Go loop (`sortSearchGo_spec` holds for every sufficient
  fuel, so the fuel never runs out at the call sites).
* Errors are `Except String` / `Option String`; a Go `nil` error is `none`.
* Methods that mutate their pointer argument (`Insert`, `Update`) return the
  final value of that argument, since the caller observes the mutation.
-/

deriving instance DecidableEq for Except

/-- Motorcycle entity, mirroring `entities.Motorcycle`. Timestamps are
abstract integer ticks; the Go zero value of `time.Time` is tick `0`. -/
structure Motorcycle where
  ID : Int
  Make : String
  Model : String
  Year : Int
  Vin : String
  CreatedUtc : Int
  ModifiedUtc : Int
deriving DecidableEq, Repr, Inhabited

/-- Modelled from the spec: `entities.Motorcycle.Validate` is not among the
provided sources. Spec sections 3 and 4.3 say entity and DTO types
self-validate required / non-empty constraints at construction, with Make,
Model and Vin as the data fields; VIN is the natural key. The model rejects
an empty Make, Model or Vin. -/
def Motorcycle.Validate (m : Motorcycle) : Option String :=
  if m.Make = "" then some "Make: cannot be blank."
  else if m.Model = "" then some "Model: cannot be blank."
  else if m.Vin = "" then some "Vin: cannot be blank."
  else none

/-- Modelled from the spec: `entities.NewMotorcycle` is not among the
provided sources. Per spec section 4.3 the constructor builds the value from
the given fields (ID and timestamps still zero), validates it, and returns
either the object or the validation error. -/
def NewMotorcycle (mk md : String) (year : Int) (vin : String) :
    Except String Motorcycle :=
  let m : Motorcycle :=
    { ID := 0, Make := mk, Model := md, Year := year, Vin := vin,
      CreatedUtc := 0, ModifiedUtc := 0 }
  match m.Validate with
  | some e => Except.error e
  | none => Except.ok m

/-- Sentinel for `findByID`: the entity does not exist
(`kPrimaryKeyID_DoesNotExist` in the Go source). -/
def kPrimaryKeyID_DoesNotExist : Int := -1

/-- Modelled from the spec: `constants.InvalidEntityID` is not among the
provided sources; the spec calls it the sentinel invalid ID, matching the
repository's not-found sentinel `-1`. -/
def InvalidEntityID : Int := -1

/-- Modelled from the spec: `constant.MinEntityID` is not among the provided
sources; the view model requires a non-zero ID of at least this minimum, so
the smallest valid entity ID is `1` (repository IDs start at `1`). -/
def MinEntityID : Int := 1

/-- Go byte-wise string comparison, step one character at a time (strict
less-than on the character sequences; for the ASCII data used here this is
exactly Go's `<` on strings). -/
def strLtChars : List Char → List Char → Bool
  | [], [] => false
  | [], _ :: _ => true
  | _ :: _, [] => false
  | a :: as, b :: bs =>
    if a.toNat < b.toNat then true
    else if b.toNat < a.toNat then false
    else strLtChars as bs

/-- Go `a <= b` on strings. -/
def strLe (a b : String) : Bool := !(strLtChars b.data a.data)

/-- Go `sort.Search` loop body: `i, j := lo, hi; for i < j { h := (i+j)/2;
if !f(h) { i = h+1 } else { j = h } }; return i`. The Go loop runs at most
`hi - lo` iterations because the interval shrinks strictly each pass; `fuel`
bounds the iteration count so the recursion is structural. -/
def sortSearchGo (f : Nat → Bool) : Nat → Nat → Nat → Nat
  | 0, i, _ => i
  | fuel + 1, i, j =>
    if i < j then
      let h := (i + j) / 2
      if f h then sortSearchGo f fuel i h
      else sortSearchGo f fuel (h + 1) j
    else i

/-- Go `sort.Search(n, f)`: fuel `n` covers every iteration of the loop from
`i, j := 0, n`. -/
def sortSearch (n : Nat) (f : Nat → Bool) : Nat :=
  sortSearchGo f n 0 n

/-- Repository state: the `Motorcycles` slice of `MotorcycleRepository`
together with the package-global `nextID` counter. -/
structure RepositoryState where
  Motorcycles : List Motorcycle
  nextID : Int
deriving DecidableEq, Repr

/-- State of a freshly constructed repository (`NewMotorcycleRepository`
yields an empty slice; the package counter starts at `0`). -/
def initState : RepositoryState :=
  { Motorcycles := [], nextID := 0 }

namespace RepositoryState

/-- Private `findByID`: binary search (`sort.Search` with predicate
`Motorcycles[i].ID >= id`), returning the index when the probed slot holds
the requested ID and `-1` otherwise. -/
def findByID (motos : List Motorcycle) (id : Int) : Int :=
  let i := sortSearch motos.length (fun k => decide (id ≤ (motos.getD k default).ID))
  if i < motos.length ∧ (motos.getD i default).ID = id then (i : Int)
  else kPrimaryKeyID_DoesNotExist

/-- getNextID increments the package-global counter and returns it. -/
def getNextID (st : RepositoryState) : Int × RepositoryState :=
  (st.nextID + 1, { st with nextID := st.nextID + 1 })

/-- Insert: reject when `findByID motorcycle.ID` hits, else overwrite the
entity's ID with the next counter value and its CreatedUtc with `now`,
validate, and append on success. Returns the new state, the caller's entity
as left by the call (the Go method mutates it through the pointer), and the
result. -/
def Insert (st : RepositoryState) (m : Motorcycle) (now : Int) :
    RepositoryState × Motorcycle × Except String Motorcycle :=
  if findByID st.Motorcycles m.ID ≠ kPrimaryKeyID_DoesNotExist then
    (st, m, Except.error "cannot insert this motorcycle because the ID already exists")
  else
    let idSt := st.getNextID
    let m1 := { m with ID := idSt.1, CreatedUtc := now }
    match m1.Validate with
    | some e => (idSt.2, m1, Except.error e)
    | none =>
      ({ idSt.2 with Motorcycles := idSt.2.Motorcycles ++ [m1] }, m1, Except.ok m1)

/-- Update: reject when the ID is absent, else overwrite ModifiedUtc with
`now`, validate, and replace the record at the found index on success. -/
def Update (st : RepositoryState) (m : Motorcycle) (now : Int) :
    RepositoryState × Motorcycle × Except String Motorcycle :=
  let i := findByID st.Motorcycles m.ID
  if i = kPrimaryKeyID_DoesNotExist then
    (st, m, Except.error "cannot update a motorcycle that does not exist")
  else
    let m1 := { m with ModifiedUtc := now }
    match m1.Validate with
    | some e => (st, m1, Except.error e)
    | none =>
      ({ st with Motorcycles := st.Motorcycles.set i.toNat m1 }, m1, Except.ok m1)

/-- Delete: reject when the ID is absent, else remove the record at the
found index (`removeIndex` is `append(s[:i], s[i+1:]...)`, i.e. `eraseIdx`). -/
def Delete (st : RepositoryState) (m : Motorcycle) :
    RepositoryState × Option String :=
  let i := findByID st.Motorcycles m.ID
  if i = kPrimaryKeyID_DoesNotExist then
    (st, some "cannot delete a motorcycle that does not exist")
  else
    ({ st with Motorcycles := st.Motorcycles.eraseIdx i.toNat }, none)

/-- Save: placeholder unit-of-work commit, always succeeds and changes
nothing. -/
def Save (st : RepositoryState) : RepositoryState × Option String :=
  (st, none)

/-- Public FindByID: wraps the private search, returning the record or the
not-found error. -/
def FindByID (st : RepositoryState) (id : Int) : Except String Motorcycle :=
  let i := findByID st.Motorcycles id
  if i = kPrimaryKeyID_DoesNotExist then
    Except.error "motorcycle was not found"
  else Except.ok (st.Motorcycles.getD i.toNat default)

/-- Find: `sort.Search` with predicate `Make >= m.Make && Model >= m.Model
&& Year >= m.Year`, then compare IDs at the probed slot. -/
def Find (st : RepositoryState) (m : Motorcycle) : Except String Motorcycle :=
  let n := st.Motorcycles.length
  let i := sortSearch n (fun k =>
    let x := st.Motorcycles.getD k default
    strLe m.Make x.Make && strLe m.Model x.Model && decide (m.Year ≤ x.Year))
  if i < n ∧ (st.Motorcycles.getD i default).ID = m.ID then
    Except.ok (st.Motorcycles.getD i default)
  else Except.error "motorcycle was not found, so it cannot be updated"

/-- Modelled from the spec: `MotorcycleRepository.FindByVin` (used by the
interactor through `interfaces.MotorcycleRepository`) is not among the
provided sources; the spec says the insert use case rejects when a
motorcycle with the same VIN already exists, so the lookup returns the
first record with a matching VIN, if any. -/
def FindByVin (st : RepositoryState) (vin : String) : Option Motorcycle :=
  st.Motorcycles.find? (fun m => m.Vin == vin)

end RepositoryState

/-- Public mutating repository operations, for reachability. Each carries
the abstract clock tick at which it runs. -/
inductive Op
  | insert (m : Motorcycle) (now : Int)
  | update (m : Motorcycle) (now : Int)
  | delete (m : Motorcycle)
deriving DecidableEq, Repr

/-- State transition of one public operation. -/
def applyOp (st : RepositoryState) (op : Op) : RepositoryState :=
  match op with
  | Op.insert m now => (st.Insert m now).1
  | Op.update m now => (st.Update m now).1
  | Op.delete m => (st.Delete m).1

/-- Run a sequence of public operations from a given state. -/
def runFrom (st : RepositoryState) (ops : List Op) : RepositoryState :=
  ops.foldl applyOp st

/-- Run a sequence of public operations from a new repository. -/
def runOps (ops : List Op) : RepositoryState :=
  runFrom initState ops

/-- Reachable repository states: produced by some sequence of public
operations from a new repository. -/
def Reachable (st : RepositoryState) : Prop :=
  ∃ ops : List Op, runOps ops = st

/-- IDs handed out by `getNextID` during one operation from a given state
(`Insert` draws an ID exactly when its duplicate check passes). -/
def opAssigned (st : RepositoryState) (op : Op) : List Int :=
  match op with
  | Op.insert m _ =>
    if RepositoryState.findByID st.Motorcycles m.ID = kPrimaryKeyID_DoesNotExist then
      [st.nextID + 1]
    else []
  | _ => []

/-- All IDs handed out by `getNextID` along a run. -/
def runAssigned : RepositoryState → List Op → List Int
  | _, [] => []
  | st, op :: rest => opAssigned st op ++ runAssigned (applyOp st op) rest

/-- Authorization roles (`enumerations.AuthorizationRole`); the interactor
checks `AdminAuthorizationRole`. -/
inductive AuthorizationRole
  | admin
deriving DecidableEq, Repr

/-- Auth service abstraction (`interfaces.AuthService`). -/
structure AuthService where
  IsAuthenticated : Bool
  IsAuthorized : AuthorizationRole → Bool

/-- Request DTO for the insert use case; modelled from the spec (the request
message type is not among the provided sources): it carries the make, model,
year and VIN entered by the caller. -/
structure InsertMotorcycleRequestMessage where
  Make : String
  Model : String
  Year : Int
  Vin : String
deriving DecidableEq, Repr

/-- Response DTO of the insert use case; modelled from the spec (the
response message type is not among the provided sources): a failure response
carries the sentinel invalid ID plus the error, a success response the new
entity's ID and no error. -/
structure InsertMotorcycleResponseMessage where
  ID : Int
  Error : Option String
deriving DecidableEq, Repr

/-- Modelled from the spec: constructor of the response DTO, carrying the
given ID and error. -/
def NewInsertMotorcycleResponseMessage (id : Int) (err : Option String) :
    InsertMotorcycleResponseMessage :=
  { ID := id, Error := err }

/-- InsertMotorcycleInteractor.Handle: authentication gate, authorization
gate, duplicate-VIN gate, entity construction/validation, repository Insert,
repository Save; first failure wins and is wrapped in a response with the
sentinel invalid ID. Returns the repository state after the call and the
response message. -/
def Handle (auth : AuthService) (st : RepositoryState)
    (req : InsertMotorcycleRequestMessage) (now : Int) :
    RepositoryState × InsertMotorcycleResponseMessage :=
  if !auth.IsAuthenticated then
    (st, NewInsertMotorcycleResponseMessage InvalidEntityID
      (some "insert operation failed due to not being authenticated, so please contact your system administrator"))
  else if !auth.IsAuthorized AuthorizationRole.admin then
    (st, NewInsertMotorcycleResponseMessage InvalidEntityID
      (some "insert operation failed due to not having the required user authorization roles, so please contact your system administrator"))
  else
    match st.FindByVin req.Vin with
    | some _ =>
      (st, NewInsertMotorcycleResponseMessage InvalidEntityID
        (some "insert operation failed due to a motorcycle with the same VIN already existing in the repository"))
    | none =>
      match NewMotorcycle req.Make req.Model req.Year req.Vin with
      | Except.error e =>
        (st, NewInsertMotorcycleResponseMessage InvalidEntityID (some e))
      | Except.ok moto =>
        match st.Insert moto now with
        | (st1, _, Except.error e) =>
          (st1, NewInsertMotorcycleResponseMessage InvalidEntityID (some e))
        | (st1, _, Except.ok inserted) =>
          match st1.Save with
          | (st2, some e) =>
            (st2, NewInsertMotorcycleResponseMessage InvalidEntityID (some e))
          | (st2, none) =>
            (st2, NewInsertMotorcycleResponseMessage inserted.ID none)

/-- View model for the insert use case
(`viewmodel.InsertMotorcycleViewModel`); `Error` is `none` for a Go `nil`
error. -/
structure InsertMotorcycleViewModel where
  ID : Int
  Message : String
  Error : Option String
deriving DecidableEq, Repr

/-- Validate of the view model: ID is required (non-zero) and at least
`MinEntityID`; Message is required (non-empty). -/
def InsertMotorcycleViewModel.Validate (vm : InsertMotorcycleViewModel) :
    Option String :=
  if vm.ID = 0 then some "ID: cannot be blank."
  else if vm.ID < MinEntityID then some "ID: must be no less than 1."
  else if vm.Message = "" then some "Message: cannot be blank."
  else none

/-- Outcome of the view-model constructor: in Go it returns a value or an
error, or panics with a nil-pointer dereference. -/
inductive VMOutcome
  | ok (vm : InsertMotorcycleViewModel)
  | err (e : String)
  | nilPanic
deriving DecidableEq, Repr

/-- NewInsertMotorcycleViewModel: build the value, validate it; on a
validation error wrap it with `viewModel.Error.Error()` — which dereferences
a nil `Error` when the caller passed no error (`errors.Wrap(msgErr, msg)`
renders as `msg ++ ": " ++ msgErr`). -/
def NewInsertMotorcycleViewModel (id : Int) (message : String)
    (err : Option String) : VMOutcome :=
  let vm : InsertMotorcycleViewModel := { ID := id, Message := message, Error := err }
  match vm.Validate with
  | some msgErr =>
    match vm.Error with
    | none => VMOutcome.nilPanic
    | some e => VMOutcome.err (e ++ ": " ++ msgErr)
  | none => VMOutcome.ok vm

example : sortSearch 2 (fun _ => true) = 0 := by decide
example : sortSearch 2 (fun _ => false) = 2 := by decide

/-- Loop specification of `sortSearchGo`, for any fuel covering the interval
width: the result stays in `[i, j]`, the predicate holds at the result when
it is below `j`, and fails just below the result when it is above `i`. The
hypotheses hold at the top-level call (`fuel = n`, interval `[0, n]`), so
fuel never runs out and the function computes exactly Go's loop. -/
theorem sortSearchGo_spec (f : Nat → Bool) :
    ∀ fuel i j, i ≤ j → j - i ≤ fuel →
      i ≤ sortSearchGo f fuel i j ∧ sortSearchGo f fuel i j ≤ j ∧
      (sortSearchGo f fuel i j < j → f (sortSearchGo f fuel i j) = true) ∧
      (i < sortSearchGo f fuel i j → f (sortSearchGo f fuel i j - 1) = false) := by
  intro fuel
  induction fuel with
  | zero =>
    intro i j hij hfuel
    have hij' : i = j := by omega
    subst hij'
    simp [sortSearchGo]
  | succ fuel ih =>
    intro i j hij hfuel
    by_cases hlt : i < j
    · by_cases hf : f ((i + j) / 2) = true
      · have h1 := ih i ((i + j) / 2) (by omega) (by omega)
        have heq : sortSearchGo f (fuel + 1) i j = sortSearchGo f fuel i ((i + j) / 2) := by
          simp [sortSearchGo, hlt, hf]
        rw [heq]
        refine ⟨h1.1, by omega, ?_, h1.2.2.2⟩
        intro _
        by_cases hr2 : sortSearchGo f fuel i ((i + j) / 2) < (i + j) / 2
        · exact h1.2.2.1 hr2
        · have hre : sortSearchGo f fuel i ((i + j) / 2) = (i + j) / 2 := by omega
          rw [hre]
          exact hf
      · have hf' : f ((i + j) / 2) = false := by
          cases hfm : f ((i + j) / 2) with
          | false => rfl
          | true => exact absurd hfm hf
        have h1 := ih ((i + j) / 2 + 1) j (by omega) (by omega)
        have heq : sortSearchGo f (fuel + 1) i j = sortSearchGo f fuel ((i + j) / 2 + 1) j := by
          simp [sortSearchGo, hlt, hf']
        rw [heq]
        refine ⟨by omega, h1.2.1, h1.2.2.1, ?_⟩
        intro _
        by_cases hr2 : (i + j) / 2 + 1 < sortSearchGo f fuel ((i + j) / 2 + 1) j
        · exact h1.2.2.2 hr2
        · have hre : sortSearchGo f fuel ((i + j) / 2 + 1) j = (i + j) / 2 + 1 := by omega
          rw [hre]
          simpa using hf'
    · have heq : sortSearchGo f (fuel + 1) i j = i := by
        simp [sortSearchGo, hlt]
      rw [heq]
      refine ⟨le_refl i, hij, ?_, ?_⟩ <;> omega

/-- Specification of `sortSearch n f`. -/
theorem sortSearch_spec (n : Nat) (f : Nat → Bool) :
    sortSearch n f ≤ n ∧
    (sortSearch n f < n → f (sortSearch n f) = true) ∧
    (0 < sortSearch n f → f (sortSearch n f - 1) = false) := by
  have h := sortSearchGo_spec f n 0 n (by omega) (by omega)
  exact ⟨h.2.1, h.2.2.1, h.2.2.2⟩

/-- On a predicate monotone below `n`, `sortSearch` computes the least index
satisfying it: everything below the result fails the predicate. -/
theorem sortSearch_min (n : Nat) (f : Nat → Bool)
    (hmono : ∀ k l : Nat, k ≤ l → l < n → f k = true → f l = true) :
    ∀ k : Nat, k < sortSearch n f → f k = false := by
  intro k hk
  have h := sortSearch_spec n f
  cases hfk : f k with
  | false => rfl
  | true =>
    exfalso
    have hr : 0 < sortSearch n f := by omega
    have h1 := h.2.2 hr
    have h2 : f (sortSearch n f - 1) = true :=
      hmono k (sortSearch n f - 1) (by omega) (by omega) hfk
    rw [h1] at h2
    exact Bool.noConfusion h2

/-- The repository collection is strictly sorted by ID. -/
def SortedByID (l : List Motorcycle) : Prop :=
  l.Pairwise (fun a b => a.ID < b.ID)

theorem sortedByID_getD_lt {l : List Motorcycle} (hs : SortedByID l)
    {k₁ k₂ : Nat} (hk : k₁ < k₂) (hk₂ : k₂ < l.length) :
    (l.getD k₁ default).ID < (l.getD k₂ default).ID := by
  rw [List.getD_eq_getElem l default (by omega), List.getD_eq_getElem l default hk₂]
  exact List.pairwise_iff_getElem.mp hs k₁ k₂ (by omega) hk₂ hk


/-- On a strictly ID-sorted collection, `findByID` returns the index of the
record holding the requested ID. -/
theorem findByID_found {l : List Motorcycle} (hs : SortedByID l) {t : Nat} {id : Int}
    (ht : t < l.length) (hid : (l.getD t default).ID = id) :
    RepositoryState.findByID l id = (t : Int) := by
  have hmono : ∀ k₁ k₂ : Nat, k₁ ≤ k₂ →
      k₂ < l.length →
      (fun k => decide (id ≤ (l.getD k default).ID)) k₁ = true →
      (fun k => decide (id ≤ (l.getD k default).ID)) k₂ = true := by
    intro k₁ k₂ hk hk₂ h1
    simp only [decide_eq_true_eq] at h1 ⊢
    rcases Nat.lt_or_ge k₁ k₂ with hlt | hge
    · have h2 := sortedByID_getD_lt hs hlt hk₂
      omega
    · have hkk : k₁ = k₂ := by omega
      subst hkk
      exact h1
  have hspec := sortSearch_spec l.length (fun k => decide (id ≤ (l.getD k default).ID))
  have hmin := sortSearch_min l.length (fun k => decide (id ≤ (l.getD k default).ID)) hmono
  generalize hr : sortSearch l.length (fun k => decide (id ≤ (l.getD k default).ID)) = r at hspec hmin
  have hft : decide (id ≤ (l.getD t default).ID) = true := by
    rw [hid]
    simp
  have hge : r ≤ t := by
    by_contra hcon
    have hf0 : (fun k => decide (id ≤ (l.getD k default).ID)) t = false :=
      hmin t (by omega)
    simp only at hf0
    rw [hft] at hf0
    exact Bool.noConfusion hf0
  have hle : t ≤ r := by
    by_contra hcon
    have hrn : r < l.length := by omega
    have h1 := hspec.2.1 hrn
    simp only [decide_eq_true_eq] at h1
    have h2 : (l.getD r default).ID < (l.getD t default).ID :=
      sortedByID_getD_lt hs (by omega) ht
    rw [hid] at h2
    omega
  have hrt : r = t := by omega
  simp only [RepositoryState.findByID, hr, hrt]
  rw [List.getD_eq_getElem l default ht] at hid
  simp [ht, hid]

/-- On any collection, when no record holds the requested ID, `findByID`
returns the not-found sentinel. -/
theorem findByID_not_found {l : List Motorcycle} {id : Int}
    (h : ∀ x ∈ l, x.ID ≠ id) :
    RepositoryState.findByID l id = kPrimaryKeyID_DoesNotExist := by
  simp only [RepositoryState.findByID]
  split
  · next hc =>
    exfalso
    have hmem : l.getD (sortSearch l.length fun k => decide (id ≤ (l.getD k default).ID)) default ∈ l := by
      rw [List.getD_eq_getElem l default hc.1]
      exact List.getElem_mem hc.1
    exact h _ hmem hc.2
  · rfl

/-- On any collection, `findByID` either returns the sentinel or a valid
index whose record holds the requested ID. -/
theorem findByID_cases (l : List Motorcycle) (id : Int) :
    RepositoryState.findByID l id = kPrimaryKeyID_DoesNotExist ∨
    (0 ≤ RepositoryState.findByID l id ∧
      (RepositoryState.findByID l id).toNat < l.length ∧
      (l.getD (RepositoryState.findByID l id).toNat default).ID = id) := by
  simp only [RepositoryState.findByID]
  split
  · next hc =>
    right
    refine ⟨Int.natCast_nonneg _, ?_, ?_⟩
    · simpa using hc.1
    · simpa using hc.2
  · left
    rfl

theorem sortedByID_set {l : List Motorcycle} (hs : SortedByID l) {k : Nat}
    (hk : k < l.length) {a : Motorcycle} (ha : a.ID = (l.getD k default).ID) :
    SortedByID (l.set k a) := by
  rw [List.getD_eq_getElem l default hk] at ha
  rw [SortedByID, List.pairwise_iff_getElem] at hs ⊢
  intro i j hi hj hij
  have hi' : i < l.length := by simpa using hi
  have hj' : j < l.length := by simpa using hj
  simp only [List.getElem_set]
  by_cases hki : k = i
  · subst hki
    rw [if_pos rfl, if_neg (by omega), ha]
    exact hs k j hk hj' hij
  · rw [if_neg hki]
    by_cases hkj : k = j
    · subst hkj
      rw [if_pos rfl, ha]
      exact hs i k hi' hk hij
    · rw [if_neg hkj]
      exact hs i j hi' hj' hij

theorem sortedByID_append {l : List Motorcycle} (hs : SortedByID l) {a : Motorcycle}
    (ha : ∀ x ∈ l, x.ID < a.ID) : SortedByID (l ++ [a]) := by
  rw [SortedByID, List.pairwise_append]
  refine ⟨hs, List.pairwise_singleton _ _, ?_⟩
  intro x hx b hb
  rw [List.mem_singleton] at hb
  subst hb
  exact ha x hx

theorem sortedByID_eraseIdx {l : List Motorcycle} (hs : SortedByID l) (k : Nat) :
    SortedByID (l.eraseIdx k) :=
  List.Pairwise.sublist (List.eraseIdx_sublist l k) hs

/-- Repository invariant: the collection is strictly sorted by ID, every
stored ID lies in `[1, nextID]`, and the counter is non-negative. -/
def RepoInv (st : RepositoryState) : Prop :=
  SortedByID st.Motorcycles ∧
  (∀ x ∈ st.Motorcycles, 1 ≤ x.ID ∧ x.ID ≤ st.nextID) ∧
  0 ≤ st.nextID

theorem Insert_eq_of_dup {st : RepositoryState} {m : Motorcycle} {now : Int}
    (h : RepositoryState.findByID st.Motorcycles m.ID ≠ kPrimaryKeyID_DoesNotExist) :
    st.Insert m now =
      (st, m, Except.error "cannot insert this motorcycle because the ID already exists") := by
  simp only [RepositoryState.Insert, if_pos h]

theorem Insert_eq_of_invalid {st : RepositoryState} {m : Motorcycle} {now : Int} {e : String}
    (h : RepositoryState.findByID st.Motorcycles m.ID = kPrimaryKeyID_DoesNotExist)
    (hv : Motorcycle.Validate { m with ID := st.nextID + 1, CreatedUtc := now } = some e) :
    st.Insert m now = ({ st with nextID := st.nextID + 1 },
      { m with ID := st.nextID + 1, CreatedUtc := now }, Except.error e) := by
  simp only [RepositoryState.Insert, RepositoryState.getNextID, h, hv]
  simp

theorem Insert_eq_of_valid {st : RepositoryState} {m : Motorcycle} {now : Int}
    (h : RepositoryState.findByID st.Motorcycles m.ID = kPrimaryKeyID_DoesNotExist)
    (hv : Motorcycle.Validate { m with ID := st.nextID + 1, CreatedUtc := now } = none) :
    st.Insert m now =
      ({ Motorcycles := st.Motorcycles ++ [{ m with ID := st.nextID + 1, CreatedUtc := now }],
         nextID := st.nextID + 1 },
       { m with ID := st.nextID + 1, CreatedUtc := now },
       Except.ok { m with ID := st.nextID + 1, CreatedUtc := now }) := by
  simp only [RepositoryState.Insert, RepositoryState.getNextID, h, hv]
  simp

theorem Update_eq_of_absent {st : RepositoryState} {m : Motorcycle} {now : Int}
    (h : RepositoryState.findByID st.Motorcycles m.ID = kPrimaryKeyID_DoesNotExist) :
    st.Update m now =
      (st, m, Except.error "cannot update a motorcycle that does not exist") := by
  simp [RepositoryState.Update, h]

theorem Update_eq_of_found_invalid {st : RepositoryState} {m : Motorcycle} {now : Int} {e : String}
    (h : RepositoryState.findByID st.Motorcycles m.ID ≠ kPrimaryKeyID_DoesNotExist)
    (hv : Motorcycle.Validate { m with ModifiedUtc := now } = some e) :
    st.Update m now = (st, { m with ModifiedUtc := now }, Except.error e) := by
  simp only [RepositoryState.Update, if_neg h, hv]

theorem Update_eq_of_found_valid {st : RepositoryState} {m : Motorcycle} {now : Int}
    (h : RepositoryState.findByID st.Motorcycles m.ID ≠ kPrimaryKeyID_DoesNotExist)
    (hv : Motorcycle.Validate { m with ModifiedUtc := now } = none) :
    st.Update m now =
      ({ st with Motorcycles :=
          (st.Motorcycles.set (RepositoryState.findByID st.Motorcycles m.ID).toNat
            { m with ModifiedUtc := now }) },
       { m with ModifiedUtc := now },
       Except.ok { m with ModifiedUtc := now }) := by
  simp only [RepositoryState.Update, if_neg h, hv]

theorem Delete_eq_of_absent {st : RepositoryState} {m : Motorcycle}
    (h : RepositoryState.findByID st.Motorcycles m.ID = kPrimaryKeyID_DoesNotExist) :
    st.Delete m = (st, some "cannot delete a motorcycle that does not exist") := by
  simp [RepositoryState.Delete, h]

theorem Delete_eq_of_found {st : RepositoryState} {m : Motorcycle}
    (h : RepositoryState.findByID st.Motorcycles m.ID ≠ kPrimaryKeyID_DoesNotExist) :
    st.Delete m =
      ({ st with Motorcycles :=
          st.Motorcycles.eraseIdx (RepositoryState.findByID st.Motorcycles m.ID).toNat },
       none) := by
  simp only [RepositoryState.Delete, if_neg h]

theorem repoInv_insert (st : RepositoryState) (hinv : RepoInv st)
    (m : Motorcycle) (now : Int) : RepoInv (st.Insert m now).1 := by
  by_cases h : RepositoryState.findByID st.Motorcycles m.ID = kPrimaryKeyID_DoesNotExist
  · cases hv : Motorcycle.Validate { m with ID := st.nextID + 1, CreatedUtc := now } with
    | some e =>
      rw [Insert_eq_of_invalid h hv]
      dsimp only
      refine ⟨hinv.1, ?_, by have := hinv.2.2; dsimp only; omega⟩
      intro x hx
      have hb := hinv.2.1 x hx
      constructor
      · exact hb.1
      · have := hb.2
        dsimp only
        omega
    | none =>
      rw [Insert_eq_of_valid h hv]
      dsimp only
      refine ⟨?_, ?_, by have := hinv.2.2; dsimp only; omega⟩
      · exact sortedByID_append hinv.1 (by
          intro x hx
          have hb := hinv.2.1 x hx
          simp only
          omega)
      · intro x hx
        rw [List.mem_append, List.mem_singleton] at hx
        rcases hx with hx | hx
        · have hb := hinv.2.1 x hx
          exact ⟨hb.1, by dsimp only; omega⟩
        · subst hx
          simp only
          constructor
          · have := hinv.2.2
            omega
          · omega
  · rw [Insert_eq_of_dup h]
    exact hinv

theorem repoInv_update (st : RepositoryState) (hinv : RepoInv st)
    (m : Motorcycle) (now : Int) : RepoInv (st.Update m now).1 := by
  by_cases h : RepositoryState.findByID st.Motorcycles m.ID = kPrimaryKeyID_DoesNotExist
  · rw [Update_eq_of_absent h]
    exact hinv
  · cases hv : Motorcycle.Validate { m with ModifiedUtc := now } with
    | some e =>
      rw [Update_eq_of_found_invalid h hv]
      exact hinv
    | none =>
      rw [Update_eq_of_found_valid h hv]
      rcases findByID_cases st.Motorcycles m.ID with hc | ⟨hge, hlt, hid⟩
      · exact absurd hc h
      · refine ⟨?_, ?_, hinv.2.2⟩
        · exact sortedByID_set hinv.1 hlt (by simpa using hid.symm)
        · intro x hx
          rcases List.mem_or_eq_of_mem_set hx with hx' | hx'
          · exact hinv.2.1 x hx'
          · subst hx'
            have hmem : st.Motorcycles.getD
                (RepositoryState.findByID st.Motorcycles m.ID).toNat default ∈ st.Motorcycles := by
              rw [List.getD_eq_getElem st.Motorcycles default hlt]
              exact List.getElem_mem hlt
            have hb := hinv.2.1 _ hmem
            simp only
            rw [hid] at hb
            exact hb

theorem repoInv_delete (st : RepositoryState) (hinv : RepoInv st)
    (m : Motorcycle) : RepoInv (st.Delete m).1 := by
  by_cases h : RepositoryState.findByID st.Motorcycles m.ID = kPrimaryKeyID_DoesNotExist
  · rw [Delete_eq_of_absent h]
    exact hinv
  · rw [Delete_eq_of_found h]
    refine ⟨sortedByID_eraseIdx hinv.1 _, ?_, hinv.2.2⟩
    intro x hx
    exact hinv.2.1 x ((List.eraseIdx_sublist st.Motorcycles _).subset hx)

theorem repoInv_applyOp (st : RepositoryState) (hinv : RepoInv st) (op : Op) :
    RepoInv (applyOp st op) := by
  cases op with
  | insert m now => exact repoInv_insert st hinv m now
  | update m now => exact repoInv_update st hinv m now
  | delete m => exact repoInv_delete st hinv m

theorem repoInv_init : RepoInv initState := by
  refine ⟨List.Pairwise.nil, ?_, by simp [initState]⟩
  intro x hx
  simp [initState] at hx

theorem repoInv_runFrom (st : RepositoryState) (hinv : RepoInv st) (ops : List Op) :
    RepoInv (runFrom st ops) := by
  induction ops generalizing st with
  | nil => exact hinv
  | cons op rest ih => exact ih (applyOp st op) (repoInv_applyOp st hinv op)

/-- Every reachable repository state satisfies the invariant. -/
theorem repoInv_reachable {st : RepositoryState} (h : Reachable st) : RepoInv st := by
  obtain ⟨ops, hops⟩ := h
  rw [← hops]
  exact repoInv_runFrom initState repoInv_init ops

theorem Insert_nextID_of_fresh {st : RepositoryState} {m : Motorcycle} {now : Int}
    (h : RepositoryState.findByID st.Motorcycles m.ID = kPrimaryKeyID_DoesNotExist) :
    (st.Insert m now).1.nextID = st.nextID + 1 := by
  cases hv : Motorcycle.Validate { m with ID := st.nextID + 1, CreatedUtc := now } with
  | some e => rw [Insert_eq_of_invalid h hv]
  | none => rw [Insert_eq_of_valid h hv]

theorem Update_nextID (st : RepositoryState) (m : Motorcycle) (now : Int) :
    (st.Update m now).1.nextID = st.nextID := by
  by_cases h : RepositoryState.findByID st.Motorcycles m.ID = kPrimaryKeyID_DoesNotExist
  · rw [Update_eq_of_absent h]
  · cases hv : Motorcycle.Validate { m with ModifiedUtc := now } with
    | some e => rw [Update_eq_of_found_invalid h hv]
    | none => rw [Update_eq_of_found_valid h hv]

theorem Delete_nextID (st : RepositoryState) (m : Motorcycle) :
    (st.Delete m).1.nextID = st.nextID := by
  by_cases h : RepositoryState.findByID st.Motorcycles m.ID = kPrimaryKeyID_DoesNotExist
  · rw [Delete_eq_of_absent h]
  · rw [Delete_eq_of_found h]

theorem nextID_le_applyOp (st : RepositoryState) (op : Op) :
    st.nextID ≤ (applyOp st op).nextID := by
  cases op with
  | insert m now =>
    by_cases h : RepositoryState.findByID st.Motorcycles m.ID = kPrimaryKeyID_DoesNotExist
    · have := @Insert_nextID_of_fresh st m now h
      rw [applyOp]
      omega
    · rw [applyOp, Insert_eq_of_dup h]
  | update m now =>
    rw [applyOp, Update_nextID]
  | delete m =>
    rw [applyOp, Delete_nextID]

theorem nextID_le_runFrom (st : RepositoryState) (ops : List Op) :
    st.nextID ≤ (runFrom st ops).nextID := by
  induction ops generalizing st with
  | nil => exact le_refl _
  | cons op rest ih =>
    have h1 := nextID_le_applyOp st op
    have h2 := ih (applyOp st op)
    calc st.nextID ≤ (applyOp st op).nextID := h1
      _ ≤ (runFrom (applyOp st op) rest).nextID := h2

/-- Every ID handed out by `getNextID` along a run is bounded by the final
counter value. -/
theorem runAssigned_le (ops : List Op) : ∀ st : RepositoryState,
    ∀ a ∈ runAssigned st ops, a ≤ (runFrom st ops).nextID := by
  induction ops with
  | nil =>
    intro st a ha
    exact absurd ha (List.not_mem_nil a)
  | cons op rest ih =>
    intro st a ha
    rw [runAssigned, List.mem_append] at ha
    rcases ha with ha | ha
    · cases op with
      | insert m now =>
        rw [opAssigned] at ha
        by_cases h : RepositoryState.findByID st.Motorcycles m.ID = kPrimaryKeyID_DoesNotExist
        · rw [if_pos h, List.mem_singleton] at ha
          subst ha
          have h1 : (applyOp st (Op.insert m now)).nextID = st.nextID + 1 := by
            rw [applyOp]
            exact Insert_nextID_of_fresh h
          have h2 := nextID_le_runFrom (applyOp st (Op.insert m now)) rest
          rw [runFrom] at h2
          rw [runFrom]
          simp only [List.foldl_cons]
          omega
        · rw [if_neg h] at ha
          exact absurd ha (List.not_mem_nil a)
      | update m now =>
        exact absurd ha (List.not_mem_nil a)
      | delete m =>
        exact absurd ha (List.not_mem_nil a)
    · have h1 := ih (applyOp st op) a ha
      rw [runFrom]
      simp only [List.foldl_cons]
      exact h1

/-- Demo entity used to instantiate theorems on concrete inputs. -/
def demoHonda : Motorcycle :=
  { ID := 0, Make := "Honda", Model := "Shadow", Year := 2006, Vin := "VH1",
    CreatedUtc := 0, ModifiedUtc := 0 }

/-- Demo entity whose make sorts before an earlier insert's make. -/
def demoApple : Motorcycle :=
  { ID := 0, Make := "Apple", Model := "A", Year := 2000, Vin := "VA1",
    CreatedUtc := 0, ModifiedUtc := 0 }

/-- Demo entity failing validation (blank Make). -/
def demoInvalid : Motorcycle :=
  { ID := 0, Make := "", Model := "M", Year := 2000, Vin := "V",
    CreatedUtc := 0, ModifiedUtc := 0 }

/-- Demo trace: two inserts, out of make/model/year order. -/
def demoOps : List Op := [Op.insert demoHonda 10, Op.insert demoApple 20]

/-- Demo reachable state produced by `demoOps`. -/
def demoSt : RepositoryState := runOps demoOps

/-- C8: for every repository state, Save returns nil and leaves the
collection and the ID counter unchanged. -/
theorem save_is_noop (st : RepositoryState) : st.Save = (st, none) := rfl

/-- C10: NewInsertMotorcycleViewModel called with a nil error and field
values failing validation (ID below the minimum, or an empty message)
dereferences the nil Error field and panics instead of returning an
error. -/
theorem viewModel_nil_error_panics (id : Int) (message : String)
    (h : id < MinEntityID ∨ message = "") :
    NewInsertMotorcycleViewModel id message none = VMOutcome.nilPanic := by
  cases hv : InsertMotorcycleViewModel.Validate { ID := id, Message := message, Error := none } with
  | some e =>
    simp only [NewInsertMotorcycleViewModel, hv]
  | none =>
    exfalso
    unfold InsertMotorcycleViewModel.Validate at hv
    dsimp only at hv
    by_cases h0 : id = 0
    · rw [if_pos h0] at hv
      exact Option.noConfusion hv
    · rw [if_neg h0] at hv
      by_cases h1 : id < MinEntityID
      · rw [if_pos h1] at hv
        exact Option.noConfusion hv
      · rw [if_neg h1] at hv
        have hm : message = "" := by
          rcases h with h | h
          · exact absurd h h1
          · exact h
        rw [if_pos hm] at hv
        exact Option.noConfusion hv

theorem viewModel_nil_error_panics_witness :
    ((0 : Int) < MinEntityID ∨ "ok" = "") ∧
    NewInsertMotorcycleViewModel 0 "ok" none = VMOutcome.nilPanic :=
  ⟨Or.inl (by decide), viewModel_nil_error_panics 0 "ok" (Or.inl (by decide))⟩

/-- C9: when Insert rejects an entity because validation fails, the
collection is unchanged, but the global nextID counter has still been
incremented and the caller's entity has had its ID and CreatedUtc
overwritten. -/
theorem insert_validation_failure_side_effects (st : RepositoryState)
    (m : Motorcycle) (now : Int) (e : String)
    (h : RepositoryState.findByID st.Motorcycles m.ID = kPrimaryKeyID_DoesNotExist)
    (hv : Motorcycle.Validate { m with ID := st.nextID + 1, CreatedUtc := now } = some e) :
    (st.Insert m now).1.Motorcycles = st.Motorcycles ∧
    (st.Insert m now).1.nextID = st.nextID + 1 ∧
    (st.Insert m now).2.1.ID = st.nextID + 1 ∧
    (st.Insert m now).2.1.CreatedUtc = now ∧
    (st.Insert m now).2.2 = Except.error e := by
  rw [Insert_eq_of_invalid h hv]
  exact ⟨rfl, rfl, rfl, rfl, rfl⟩

theorem insert_validation_failure_side_effects_witness :
    RepositoryState.findByID initState.Motorcycles demoInvalid.ID = kPrimaryKeyID_DoesNotExist ∧
    Motorcycle.Validate { demoInvalid with ID := initState.nextID + 1, CreatedUtc := 5 } =
      some "Make: cannot be blank." ∧
    (initState.Insert demoInvalid 5).1.Motorcycles = initState.Motorcycles ∧
    (initState.Insert demoInvalid 5).1.nextID = initState.nextID + 1 ∧
    (initState.Insert demoInvalid 5).2.1.ID = initState.nextID + 1 :=
  have h := insert_validation_failure_side_effects initState demoInvalid 5
    "Make: cannot be blank." (by decide) (by decide)
  ⟨by decide, by decide, h.1, h.2.1, h.2.2.1⟩

/-- C5: on every repository state arising through the public operations,
Insert of an entity whose ID is already present returns an error and leaves
the state (and the caller's entity) unchanged. -/
theorem insert_duplicate_id_rejected (st : RepositoryState) (m : Motorcycle)
    (now : Int) (hreach : Reachable st)
    (hmem : ∃ x ∈ st.Motorcycles, x.ID = m.ID) :
    st.Insert m now =
      (st, m, Except.error "cannot insert this motorcycle because the ID already exists") := by
  obtain ⟨x, hx, hxid⟩ := hmem
  have hinv := repoInv_reachable hreach
  obtain ⟨t, ht, hxt⟩ := List.getElem_of_mem hx
  have hfind : RepositoryState.findByID st.Motorcycles m.ID = (t : Int) := by
    apply findByID_found hinv.1 ht
    rw [List.getD_eq_getElem st.Motorcycles default ht, hxt, hxid]
  apply Insert_eq_of_dup
  rw [hfind]
  unfold kPrimaryKeyID_DoesNotExist
  omega

theorem insert_duplicate_id_rejected_witness :
    Reachable demoSt ∧
    (∃ x ∈ demoSt.Motorcycles, x.ID = ({ demoHonda with ID := 1 } : Motorcycle).ID) ∧
    demoSt.Insert { demoHonda with ID := 1 } 99 =
      (demoSt, { demoHonda with ID := 1 },
       Except.error "cannot insert this motorcycle because the ID already exists") :=
  ⟨⟨demoOps, rfl⟩, by decide,
   insert_duplicate_id_rejected demoSt { demoHonda with ID := 1 } 99 ⟨demoOps, rfl⟩ (by decide)⟩

/-- C7: on every repository state arising through the public operations,
Delete of an entity whose ID is absent returns an error and leaves the state
unchanged, while Delete of an entity whose ID is present returns nil and
removes exactly the record with that ID (the collection becomes the records
before it followed by the records after it, one shorter). -/
theorem delete_spec (st : RepositoryState) (m : Motorcycle)
    (hreach : Reachable st) :
    ((∀ x ∈ st.Motorcycles, x.ID ≠ m.ID) →
      st.Delete m = (st, some "cannot delete a motorcycle that does not exist")) ∧
    (∀ k : Nat, k < st.Motorcycles.length →
      (st.Motorcycles.getD k default).ID = m.ID →
      (st.Delete m).2 = none ∧
      (st.Delete m).1.Motorcycles =
        st.Motorcycles.take k ++ st.Motorcycles.drop (k + 1) ∧
      (st.Delete m).1.Motorcycles.length + 1 = st.Motorcycles.length ∧
      (st.Delete m).1.nextID = st.nextID) := by
  have hinv := repoInv_reachable hreach
  constructor
  · intro habs
    exact Delete_eq_of_absent (findByID_not_found habs)
  · intro k hk hid
    have hfind : RepositoryState.findByID st.Motorcycles m.ID = (k : Int) :=
      findByID_found hinv.1 hk hid
    have hne : RepositoryState.findByID st.Motorcycles m.ID ≠ kPrimaryKeyID_DoesNotExist := by
      rw [hfind]
      unfold kPrimaryKeyID_DoesNotExist
      omega
    rw [Delete_eq_of_found hne, hfind]
    refine ⟨rfl, ?_, ?_, rfl⟩
    · dsimp only
      rw [Int.toNat_natCast]
      exact List.eraseIdx_eq_take_drop_succ st.Motorcycles k
    · dsimp only
      rw [Int.toNat_natCast, List.length_eraseIdx_of_lt hk]
      omega

theorem delete_spec_witness :
    Reachable demoSt ∧
    (demoSt.Delete { demoHonda with ID := 1 }).2 = none ∧
    (demoSt.Delete { demoHonda with ID := 1 }).1.Motorcycles =
      demoSt.Motorcycles.take 0 ++ demoSt.Motorcycles.drop 1 ∧
    (demoSt.Delete { demoHonda with ID := 1 }).1.Motorcycles.length + 1 =
      demoSt.Motorcycles.length :=
  have h := (delete_spec demoSt { demoHonda with ID := 1 } ⟨demoOps, rfl⟩).2
    0 (by decide) (by decide)
  ⟨⟨demoOps, rfl⟩, h.1, h.2.1, h.2.2.1⟩

/-- Demo update payload with an existing ID but a blank Make, so entity
validation fails. -/
def demoBlankUpd : Motorcycle :=
  { ID := 1, Make := "", Model := "Shadow", Year := 2006, Vin := "VH1",
    CreatedUtc := 0, ModifiedUtc := 0 }

/-- C6 counterexample: on a reachable state whose collection holds ID 1,
Update with an entity of ID 1 that fails entity validation (blank Make)
returns an error and leaves the collection unchanged, instead of replacing
the record as the claim states unconditionally. -/
theorem update_unconditional_replace_cex :
    Reachable demoSt ∧
    (∃ x ∈ demoSt.Motorcycles, x.ID = demoBlankUpd.ID) ∧
    (demoSt.Update demoBlankUpd 99).1 = demoSt ∧
    (demoSt.Update demoBlankUpd 99).2.2 = Except.error "Make: cannot be blank." ∧
    demoSt.Motorcycles.getD 0 default ≠ ({ demoBlankUpd with ModifiedUtc := 99 } : Motorcycle) :=
  ⟨⟨demoOps, rfl⟩, by decide, by decide, by decide, by decide⟩

/-- C6 (amended): on every repository state arising through the public
operations, Update of an entity whose ID is absent returns an error and
leaves the collection unchanged; Update of an entity whose ID is present
and which passes entity validation (after its ModifiedUtc is set to the
call time) replaces exactly the record at that ID with the given entity's
fields plus the new ModifiedUtc, leaving every other record unchanged. -/
theorem update_spec (st : RepositoryState) (m : Motorcycle) (now : Int)
    (hreach : Reachable st) :
    ((∀ x ∈ st.Motorcycles, x.ID ≠ m.ID) →
      st.Update m now = (st, m, Except.error "cannot update a motorcycle that does not exist")) ∧
    (∀ k : Nat, k < st.Motorcycles.length →
      (st.Motorcycles.getD k default).ID = m.ID →
      Motorcycle.Validate { m with ModifiedUtc := now } = none →
      (st.Update m now).2.2 = Except.ok { m with ModifiedUtc := now } ∧
      (st.Update m now).1.Motorcycles =
        st.Motorcycles.set k { m with ModifiedUtc := now } ∧
      (st.Update m now).1.Motorcycles.getD k default = { m with ModifiedUtc := now } ∧
      (∀ j : Nat, j < st.Motorcycles.length → j ≠ k →
        (st.Update m now).1.Motorcycles.getD j default = st.Motorcycles.getD j default) ∧
      (st.Update m now).1.Motorcycles.length = st.Motorcycles.length ∧
      (st.Update m now).1.nextID = st.nextID) := by
  have hinv := repoInv_reachable hreach
  constructor
  · intro habs
    exact Update_eq_of_absent (findByID_not_found habs)
  · intro k hk hid hv
    have hfind : RepositoryState.findByID st.Motorcycles m.ID = (k : Int) :=
      findByID_found hinv.1 hk hid
    have hne : RepositoryState.findByID st.Motorcycles m.ID ≠ kPrimaryKeyID_DoesNotExist := by
      rw [hfind]
      unfold kPrimaryKeyID_DoesNotExist
      omega
    rw [Update_eq_of_found_valid hne hv, hfind]
    dsimp only
    rw [Int.toNat_natCast]
    refine ⟨rfl, rfl, ?_, ?_, by simp, rfl⟩
    · rw [List.getD_eq_getElem _ default (by simpa using hk)]
      simp [List.getElem_set]
    · intro j hj hjk
      rw [List.getD_eq_getElem _ default (by simpa using hj),
        List.getD_eq_getElem _ default hj]
      rw [List.getElem_set]
      rw [if_neg (by omega)]

/-- Demo valid update payload for ID 1. -/
def demoHarleyUpd : Motorcycle :=
  { ID := 1, Make := "Harley Davidson", Model := "Shadow", Year := 2006,
    Vin := "VH1", CreatedUtc := 10, ModifiedUtc := 0 }

theorem update_spec_witness :
    Reachable demoSt ∧
    (demoSt.Update demoHarleyUpd 99).2.2 =
      Except.ok ({ demoHarleyUpd with ModifiedUtc := 99 } : Motorcycle) ∧
    (demoSt.Update demoHarleyUpd 99).1.Motorcycles =
      demoSt.Motorcycles.set 0 ({ demoHarleyUpd with ModifiedUtc := 99 } : Motorcycle) ∧
    (demoSt.Update demoHarleyUpd 99).1.Motorcycles.getD 1 default =
      demoSt.Motorcycles.getD 1 default :=
  have h := (update_spec demoSt demoHarleyUpd 99 ⟨demoOps, rfl⟩).2
    0 (by decide) (by decide) (by decide)
  ⟨⟨demoOps, rfl⟩, h.1, h.2.1, h.2.2.2.1 1 (by decide) (by decide)⟩

/-- Demo valid entity for a third insert. -/
def demoYamaha : Motorcycle :=
  { ID := 0, Make := "Yamaha", Model := "R1", Year := 2010, Vin := "VY1",
    CreatedUtc := 0, ModifiedUtc := 0 }

/-- C2: from any state reached by a run of public operations, a successful
Insert hands the entity the counter's next value as ID — an ID absent from
the collection and strictly greater than every ID handed out by getNextID
during the run — stamps its CreatedUtc with the call time, and appends
exactly that entity. -/
theorem insert_fresh_monotonic_id (ops : List Op) (m : Motorcycle) (now : Int)
    (st' : RepositoryState) (m' r : Motorcycle)
    (h : (runOps ops).Insert m now = (st', m', Except.ok r)) :
    r.ID = (runOps ops).nextID + 1 ∧
    (∀ a ∈ runAssigned initState ops, a < r.ID) ∧
    (∀ x ∈ (runOps ops).Motorcycles, x.ID ≠ r.ID) ∧
    r.CreatedUtc = now ∧
    st'.Motorcycles = (runOps ops).Motorcycles ++ [r] ∧
    st'.nextID = (runOps ops).nextID + 1 := by
  have hinv : RepoInv (runOps ops) := repoInv_reachable ⟨ops, rfl⟩
  by_cases h0 : RepositoryState.findByID (runOps ops).Motorcycles m.ID =
      kPrimaryKeyID_DoesNotExist
  · cases hv : Motorcycle.Validate
        { m with ID := (runOps ops).nextID + 1, CreatedUtc := now } with
    | some e =>
      rw [Insert_eq_of_invalid h0 hv] at h
      rw [Prod.mk.injEq, Prod.mk.injEq] at h
      exact absurd h.2.2 (by simp)
    | none =>
      rw [Insert_eq_of_valid h0 hv] at h
      rw [Prod.mk.injEq, Prod.mk.injEq] at h
      obtain ⟨hst', hm', hok⟩ := h
      rw [Except.ok.injEq] at hok
      subst hok
      subst hst'
      refine ⟨rfl, ?_, ?_, rfl, rfl, rfl⟩
      · intro a ha
        have hle := runAssigned_le ops initState a ha
        have hrun : runFrom initState ops = runOps ops := rfl
        rw [hrun] at hle
        dsimp only
        omega
      · intro x hx
        have hb := hinv.2.1 x hx
        dsimp only
        omega
  · rw [Insert_eq_of_dup h0] at h
    rw [Prod.mk.injEq, Prod.mk.injEq] at h
    exact absurd h.2.2 (by simp)

theorem insert_fresh_monotonic_id_witness :
    (runOps demoOps).Insert demoYamaha 30 =
      ({ Motorcycles :=
          ((runOps demoOps).Motorcycles ++ [{ demoYamaha with ID := 3, CreatedUtc := 30 }]),
         nextID := 3 },
       { demoYamaha with ID := 3, CreatedUtc := 30 },
       Except.ok { demoYamaha with ID := 3, CreatedUtc := 30 }) ∧
    ({ demoYamaha with ID := 3, CreatedUtc := 30 } : Motorcycle).ID =
      (runOps demoOps).nextID + 1 ∧
    (∀ a ∈ runAssigned initState demoOps,
      a < ({ demoYamaha with ID := 3, CreatedUtc := 30 } : Motorcycle).ID) ∧
    (∀ x ∈ (runOps demoOps).Motorcycles,
      x.ID ≠ ({ demoYamaha with ID := 3, CreatedUtc := 30 } : Motorcycle).ID) :=
  have h := insert_fresh_monotonic_id demoOps demoYamaha 30
    { Motorcycles :=
        ((runOps demoOps).Motorcycles ++ [{ demoYamaha with ID := 3, CreatedUtc := 30 }]),
      nextID := 3 }
    { demoYamaha with ID := 3, CreatedUtc := 30 }
    { demoYamaha with ID := 3, CreatedUtc := 30 } (by decide)
  ⟨by decide, h.1, h.2.1, h.2.2.1⟩

/-- C4: along every sequence of public operations from a new repository the
collection stays strictly sorted in ascending ID order, so the binary
search in findByID returns the index of the record with the requested ID
whenever one exists. -/
theorem reachable_sorted_findByID_correct (st : RepositoryState)
    (hreach : Reachable st) :
    SortedByID st.Motorcycles ∧
    ∀ k : Nat, k < st.Motorcycles.length →
      RepositoryState.findByID st.Motorcycles ((st.Motorcycles.getD k default).ID) =
        (k : Int) := by
  have hinv := repoInv_reachable hreach
  refine ⟨hinv.1, ?_⟩
  intro k hk
  exact findByID_found hinv.1 hk rfl

theorem reachable_sorted_findByID_correct_witness :
    Reachable demoSt ∧
    SortedByID demoSt.Motorcycles ∧
    RepositoryState.findByID demoSt.Motorcycles ((demoSt.Motorcycles.getD 1 default).ID) =
      (1 : Int) :=
  have h := reachable_sorted_findByID_correct demoSt ⟨demoOps, rfl⟩
  ⟨⟨demoOps, rfl⟩, h.1, h.2 1 (by decide)⟩

/-- C3: there is a repository state reachable through the public operations
holding a motorcycle on which the repository lookup fails: Find on a stored
record errors because its binary search assumes a make/model/year sort
order that ID-ordered insertion does not guarantee. -/
theorem find_misses_stored_record :
    ∃ st : RepositoryState, ∃ m : Motorcycle,
      Reachable st ∧ m ∈ st.Motorcycles ∧
      st.Find m = Except.error "motorcycle was not found, so it cannot be updated" :=
  ⟨demoSt, { demoApple with ID := 2, CreatedUtc := 20 },
   ⟨demoOps, rfl⟩, by decide, by decide⟩

/-- C1: Handle applies its checks in order — authentication, authorization,
duplicate VIN, entity construction/validation, repository Insert,
repository Save — each short-circuiting on the first failure; every failure
path returns a response carrying InvalidEntityID together with the error,
and only the all-checks-pass path returns a response carrying the inserted
motorcycle's ID with no error (Save, the last gate, never fails). -/
theorem handle_gate_spec (auth : AuthService) (st : RepositoryState)
    (req : InsertMotorcycleRequestMessage) (now : Int) :
    (auth.IsAuthenticated = false →
      Handle auth st req now = (st, NewInsertMotorcycleResponseMessage InvalidEntityID
        (some "insert operation failed due to not being authenticated, so please contact your system administrator"))) ∧
    (auth.IsAuthenticated = true →
      auth.IsAuthorized AuthorizationRole.admin = false →
      Handle auth st req now = (st, NewInsertMotorcycleResponseMessage InvalidEntityID
        (some "insert operation failed due to not having the required user authorization roles, so please contact your system administrator"))) ∧
    (∀ x : Motorcycle, auth.IsAuthenticated = true →
      auth.IsAuthorized AuthorizationRole.admin = true →
      st.FindByVin req.Vin = some x →
      Handle auth st req now = (st, NewInsertMotorcycleResponseMessage InvalidEntityID
        (some "insert operation failed due to a motorcycle with the same VIN already existing in the repository"))) ∧
    (∀ e : String, auth.IsAuthenticated = true →
      auth.IsAuthorized AuthorizationRole.admin = true →
      st.FindByVin req.Vin = none →
      NewMotorcycle req.Make req.Model req.Year req.Vin = Except.error e →
      Handle auth st req now = (st, NewInsertMotorcycleResponseMessage InvalidEntityID (some e))) ∧
    (∀ mo : Motorcycle, ∀ st1 : RepositoryState, ∀ m1 : Motorcycle, ∀ e : String,
      auth.IsAuthenticated = true →
      auth.IsAuthorized AuthorizationRole.admin = true →
      st.FindByVin req.Vin = none →
      NewMotorcycle req.Make req.Model req.Year req.Vin = Except.ok mo →
      st.Insert mo now = (st1, m1, Except.error e) →
      Handle auth st req now = (st1, NewInsertMotorcycleResponseMessage InvalidEntityID (some e))) ∧
    (∀ mo : Motorcycle, ∀ st1 : RepositoryState, ∀ m1 : Motorcycle, ∀ r : Motorcycle,
      auth.IsAuthenticated = true →
      auth.IsAuthorized AuthorizationRole.admin = true →
      st.FindByVin req.Vin = none →
      NewMotorcycle req.Make req.Model req.Year req.Vin = Except.ok mo →
      st.Insert mo now = (st1, m1, Except.ok r) →
      Handle auth st req now = (st1, NewInsertMotorcycleResponseMessage r.ID none)) := by
  refine ⟨?_, ?_, ?_, ?_, ?_, ?_⟩
  · intro ha
    simp [Handle, ha]
  · intro ha hz
    simp [Handle, ha, hz]
  · intro x ha hz hvin
    simp [Handle, ha, hz, hvin]
  · intro e ha hz hvin hnew
    simp [Handle, ha, hz, hvin, hnew]
  · intro mo st1 m1 e ha hz hvin hnew hins
    simp [Handle, ha, hz, hvin, hnew, hins]
  · intro mo st1 m1 r ha hz hvin hnew hins
    simp [Handle, ha, hz, hvin, hnew, hins, RepositoryState.Save]

/-- Auth service granting everything, for concrete instantiation. -/
def demoAuth : AuthService :=
  { IsAuthenticated := true, IsAuthorized := fun _ => true }

/-- Request matching `demoHonda`. -/
def demoReq : InsertMotorcycleRequestMessage :=
  { Make := "Honda", Model := "Shadow", Year := 2006, Vin := "VH1" }

theorem handle_gate_spec_witness :
    Handle demoAuth initState demoReq 5 =
      ({ Motorcycles := [{ demoHonda with ID := 1, CreatedUtc := 5 }], nextID := 1 },
       NewInsertMotorcycleResponseMessage 1 none) :=
  (handle_gate_spec demoAuth initState demoReq 5).2.2.2.2.2
    demoHonda
    { Motorcycles := [{ demoHonda with ID := 1, CreatedUtc := 5 }], nextID := 1 }
    { demoHonda with ID := 1, CreatedUtc := 5 }
    { demoHonda with ID := 1, CreatedUtc := 5 }
    rfl rfl (by decide) (by decide) (by decide)
